import Mathlib

/- A shallow embedding of src/app.py from the law-firm-agency-detector
repository.  The pure core (URL normalization, signature-based vendor
detection over a lowercased search corpus, and batch-scan orchestration)
is translated directly from the source.  The two external effects are
modelled as oracles: a fetch function stands for one requests.get call
(returning a response with status code and body text, or raising a
transport exception rendered as its message string), and an extract
function stands for the BeautifulSoup signal-text collection (footer
text, meta content attributes, comment bodies, asset src/href
attributes) from an HTML document. -/

/-- ASCII whitespace as stripped by Python str.strip (space, tab,
newline, carriage return, vertical tab, form feed). -/
def pyIsSpace (c : Char) : Bool :=
  c = ' ' || c = '\t' || c = '\n' || c = '\r' || c = '\x0b' || c = '\x0c'

/-- Python str.strip: drop whitespace from both ends. -/
def pyStrip (s : String) : String :=
  ⟨((s.data.dropWhile pyIsSpace).reverse.dropWhile pyIsSpace).reverse⟩

/-- Python str.startswith with one literal argument (case-sensitive). -/
def pyStartsWith (s p : String) : Bool :=
  p.data.isPrefixOf s.data

/-- Substring containment on character lists: true when sub occurs as a
contiguous run inside the second list. -/
def listContainsSeq (sub : List Char) : List Char → Bool
  | [] => sub.isEmpty
  | c :: rest => sub.isPrefixOf (c :: rest) || listContainsSeq sub rest

/-- Python substring test: strContains s sub models the expression
sub in s. -/
def strContains (s sub : String) : Bool :=
  listContainsSeq sub.data s.data

/-- normalize_url from src/app.py lines 50-56: strip, map empty to
empty, keep an http:// or https:// scheme, otherwise add http://. -/
def normalize_url (url : String) : String :=
  let u := pyStrip url
  if u = "" then ""
  else if !(pyStartsWith u "http://" || pyStartsWith u "https://") then "http://" ++ u
  else u

/-- The AGENCIES registry of src/app.py lines 28-45: vendor name paired
with its signature substrings, in source order. -/
def AGENCIES : List (String × List String) := [
  ("Hennessey Digital", ["hennessey"]),
  ("Scorpion", ["scorpion", "scorpioncms"]),
  ("LawRank", ["lawrank"]),
  ("iLawyerMarketing", ["ilawyermarketing"]),
  ("Elite Legal Marketing", ["elitelegalmarketing"]),
  ("Juris Digital", ["jurisdigital"]),
  ("Justia", ["justia"]),
  ("Nifty Marketing", ["niftymarketing"]),
  ("On The Map Marketing", ["onthemapmarketing"]),
  ("FindLaw", ["findlaw", "powered by findlaw"]),
  ("Thomson Reuters", ["thomsonreuters", "thomson reuters"]),
  ("Martindale", ["martindale", "martindale-avvo", "martindale.com"]),
  ("Foster Web Marketing", ["fosterwebmarketing", "fwm"]),
  ("Triple Digital", ["tripledigital", "tripledigitalseo"]),
  ("EverConvert", ["everconvert"]),
  ("MeanPug", ["meanpug", "meanpug.com"])]

/-- Python str.lower, character by character (ASCII range; the
signatures and asset tokens are all ASCII). -/
def pyToLower (s : String) : String :=
  ⟨s.data.map Char.toLower⟩

/-- The search corpus of one detection call, src/app.py line 87:
full_text = " ".join(texts).lower(). -/
def corpusOf (texts : List String) : String :=
  pyToLower (String.intercalate " " texts)

/-- The asset heuristic of src/app.py line 94: any of the literal
tokens .js .css cdn .png .jpg .svg occurs in the whole corpus. -/
def hasAssetToken (full_text : String) : Bool :=
  [".js", ".css", "cdn", ".png", ".jpg", ".svg"].any (fun x => strContains full_text x)

/-- The signature-matching stage of detect_agency, src/app.py lines
90-98, over the already collected signal texts.  A vendor is reported
when any of its signatures occurs in the corpus (the Python loop breaks
at the first matching signature, which only affects which signature
matched, never the produced entry).  The kinds value is exactly what
Python sorted(set(kinds)) yields for the kinds list the code builds:
["asset", "text"] when the asset heuristic fires, else ["text"].  The
result is an association list in insertion order, which is registry
order because the loop iterates AGENCIES.items(). -/
def detectCore (texts : List String) : List (String × List String) :=
  AGENCIES.filterMap (fun entry =>
    if entry.2.any (fun sig => strContains (corpusOf texts) sig) then
      some (entry.1, (if hasAssetToken (corpusOf texts) then ["asset"] else []) ++ ["text"])
    else none)

/-- detect_agency from src/app.py lines 58-100, with the BeautifulSoup
signal-text collection abstracted as the extract oracle. -/
def detect_agency (extract : String → List String) (html : String) :
    List (String × List String) :=
  detectCore (extract html)

/-- Outcome of one requests.get call: a response carrying status code
and body text, or a raised transport exception carrying its rendered
message str(e). -/
inductive FetchResult where
  | resp (status : Nat) (text : String)
  | exc (msg : String)
deriving DecidableEq

/-- One row dict appended to results in run_scan, with the keys URL,
Agency Detected, Evidence Type. -/
structure ResultRecord where
  url : String
  agencyDetected : String
  evidenceType : String
deriving DecidableEq

/-- The per-URL body of the run_scan loop, src/app.py lines 119-145:
empty normalized URL gives an Error row without any fetch; a raised
fetch exception gives an Error row with the message; a 200 response
with nonempty body runs detection and yields one Detected row per
matched vendor or one None row; any other response gives an HTTP Error
row. -/
def scanOne (fetch : String → FetchResult) (extract : String → List String)
    (url : String) : List ResultRecord :=
  let full_url := normalize_url url
  if full_url = "" then [⟨url, "Error", "Empty URL"⟩]
  else
    match fetch full_url with
    | FetchResult.resp status text =>
      if status = 200 ∧ text ≠ "" then
        let hits := detect_agency extract text
        if hits.isEmpty then [⟨url, "None", ""⟩]
        else hits.map (fun p => ⟨url, p.1, String.intercalate ", " p.2⟩)
      else [⟨url, "Error", "HTTP " ++ toString status⟩]
    | FetchResult.exc msg => [⟨url, "Error", msg⟩]

/-- run_scan from src/app.py lines 114-149: the results accumulator
grows by appending the rows of each URL, in input order. -/
def run_scan (fetch : String → FetchResult) (extract : String → List String)
    (urls : List String) : List ResultRecord :=
  urls.foldl (fun results url => results ++ scanOne fetch extract url) []

theorem foldl_append_eq_flatten (f : String → FetchResult) (e : String → List String)
    (urls : List String) :
    ∀ acc : List ResultRecord,
      urls.foldl (fun results url => results ++ scanOne f e url) acc
        = acc ++ (urls.map (scanOne f e)).flatten := by
  induction urls with
  | nil => intro acc; simp
  | cons u us ih =>
    intro acc
    simp only [List.foldl_cons, List.map_cons, List.flatten_cons, ih, List.append_assoc]

theorem run_scan_eq_flatten (f : String → FetchResult) (e : String → List String)
    (urls : List String) :
    run_scan f e urls = (urls.map (scanOne f e)).flatten := by
  simpa [run_scan] using foldl_append_eq_flatten f e urls []

theorem run_scan_cons (f : String → FetchResult) (e : String → List String)
    (u : String) (us : List String) :
    run_scan f e (u :: us) = scanOne f e u ++ run_scan f e us := by
  simp [run_scan_eq_flatten]

theorem run_scan_append (f : String → FetchResult) (e : String → List String)
    (us vs : List String) :
    run_scan f e (us ++ vs) = run_scan f e us ++ run_scan f e vs := by
  simp [run_scan_eq_flatten]

theorem scanOne_ne_nil (f : String → FetchResult) (e : String → List String)
    (url : String) : scanOne f e url ≠ [] := by
  unfold scanOne
  dsimp only
  split
  · simp
  · split
    · rename_i status text
      split
      · split
        · simp
        · rename_i hits hne
          simp only [ne_eq, List.map_eq_nil_iff]
          simpa using hne
      · simp
    · simp

theorem scanOne_empty_case (f : String → FetchResult) (e : String → List String)
    (url : String) (h : normalize_url url = "") :
    scanOne f e url = [⟨url, "Error", "Empty URL"⟩] := by
  simp [scanOne, h]

theorem scanOne_exc_case (f : String → FetchResult) (e : String → List String)
    (url msg : String) (hn : normalize_url url ≠ "")
    (hf : f (normalize_url url) = FetchResult.exc msg) :
    scanOne f e url = [⟨url, "Error", msg⟩] := by
  simp [scanOne, hn, hf]

theorem scanOne_http_case (f : String → FetchResult) (e : String → List String)
    (url : String) (st : Nat) (txt : String) (hn : normalize_url url ≠ "")
    (hf : f (normalize_url url) = FetchResult.resp st txt)
    (hbad : st ≠ 200 ∨ txt = "") :
    scanOne f e url = [⟨url, "Error", "HTTP " ++ toString st⟩] := by
  have hcond : ¬ (st = 200 ∧ txt ≠ "") := by
    rcases hbad with h | h
    · exact fun hc => h hc.1
    · exact fun hc => hc.2 h
  simp [scanOne, hn, hf, hcond]

theorem scanOne_hits_case (f : String → FetchResult) (e : String → List String)
    (url : String) (txt : String) (hn : normalize_url url ≠ "")
    (hf : f (normalize_url url) = FetchResult.resp 200 txt) (ht : txt ≠ "")
    (hd : detect_agency e txt ≠ []) :
    scanOne f e url
      = (detect_agency e txt).map (fun p => ⟨url, p.1, String.intercalate ", " p.2⟩) := by
  have hemp : (detect_agency e txt).isEmpty = false := by
    simpa [List.isEmpty_iff] using hd
  simp [scanOne, hn, hf, ht, hemp]

theorem scanOne_nomatch_case (f : String → FetchResult) (e : String → List String)
    (url : String) (txt : String) (hn : normalize_url url ≠ "")
    (hf : f (normalize_url url) = FetchResult.resp 200 txt) (ht : txt ≠ "")
    (hd : detect_agency e txt = []) :
    scanOne f e url = [⟨url, "None", ""⟩] := by
  simp [scanOne, hn, hf, ht, hd]

theorem normalize_url_empty_branch (s : String) (h : pyStrip s = "") :
    normalize_url s = "" := by
  simp [normalize_url, h]

theorem normalize_url_keep_branch (s : String)
    (h : (pyStartsWith (pyStrip s) "http://" || pyStartsWith (pyStrip s) "https://") = true) :
    normalize_url s = pyStrip s := by
  by_cases hu : pyStrip s = ""
  · rw [hu] at h
    exact absurd h (by decide)
  · simp [normalize_url, hu, h]

theorem normalize_url_addscheme_branch (s : String) (h1 : pyStrip s ≠ "")
    (h2 : (pyStartsWith (pyStrip s) "http://" || pyStartsWith (pyStrip s) "https://") = false) :
    normalize_url s = "http://" ++ pyStrip s := by
  simp [normalize_url, h1, h2]

theorem isPrefixOf_head_eq {a b : Char} {as bs l : List Char}
    (ha : (a :: as).isPrefixOf l = true) (hb : (b :: bs).isPrefixOf l = true) : a = b := by
  rcases List.isPrefixOf_iff_prefix.mp ha with ⟨t, ht⟩
  rcases List.isPrefixOf_iff_prefix.mp hb with ⟨t2, ht2⟩
  have h := ht.trans ht2.symm
  simp only [List.cons_append] at h
  simpa using congrArg List.head? h

theorem isPrefixOf_self (l : List Char) : l.isPrefixOf l = true :=
  List.isPrefixOf_iff_prefix.mpr (List.prefix_refl l)

theorem containsSeq_append_self (sub : List Char) :
    ∀ l : List Char, listContainsSeq sub (l ++ sub) = true
  | [] => by
    cases sub with
    | nil => rfl
    | cons c cs => simp [listContainsSeq, isPrefixOf_self]
  | c :: l => by
    simp [listContainsSeq, containsSeq_append_self sub l]

theorem strContains_append_self (s t : String) : strContains (s ++ t) t = true := by
  show listContainsSeq t.data (s ++ t).data = true
  have hdata : (s ++ t).data = s.data ++ t.data := rfl
  rw [hdata]
  exact containsSeq_append_self t.data s.data

theorem detectCore_mem_shape {texts : List String} {a : String} {kinds : List String}
    (h : (a, kinds) ∈ detectCore texts) :
    kinds = (if hasAssetToken (corpusOf texts) then ["asset", "text"] else ["text"])
      ∧ a ∈ AGENCIES.map Prod.fst := by
  unfold detectCore at h
  rcases List.mem_filterMap.mp h with ⟨entry, hent, heq⟩
  split at heq
  · have h' := Option.some.inj heq
    rw [Prod.mk.injEq] at h'
    obtain ⟨h1, h2⟩ := h'
    constructor
    · rw [← h2]
      cases hA : hasAssetToken (corpusOf texts) <;> simp [hA]
    · exact List.mem_map.mpr ⟨entry, hent, h1⟩
  · exact absurd heq (by simp)

theorem map_fst_filterMap_sublist {α β γ : Type} (l : List (α × β))
    (g : α × β → Option (α × γ)) (hg : ∀ p q, g p = some q → q.1 = p.1) :
    ((l.filterMap g).map Prod.fst).Sublist (l.map Prod.fst) := by
  induction l with
  | nil => simp
  | cons p l ih =>
    cases hgp : g p with
    | none =>
      simp only [List.filterMap_cons, hgp, List.map_cons]
      exact List.Sublist.cons p.1 ih
    | some q =>
      simp only [List.filterMap_cons, hgp, List.map_cons]
      rw [hg p q hgp]
      exact List.Sublist.cons₂ p.1 ih

theorem scanOne_mem_cases (f : String → FetchResult) (e : String → List String)
    (url : String) (rec : ResultRecord) (h : rec ∈ scanOne f e url) :
    (normalize_url url = "" ∧ rec = ⟨url, "Error", "Empty URL"⟩)
    ∨ (∃ msg, f (normalize_url url) = FetchResult.exc msg ∧ rec = ⟨url, "Error", msg⟩)
    ∨ (∃ st txt, f (normalize_url url) = FetchResult.resp st txt
        ∧ ¬ (st = 200 ∧ txt ≠ "") ∧ rec = ⟨url, "Error", "HTTP " ++ toString st⟩)
    ∨ (∃ txt, f (normalize_url url) = FetchResult.resp 200 txt ∧ txt ≠ ""
        ∧ detect_agency e txt = [] ∧ rec = ⟨url, "None", ""⟩)
    ∨ (∃ txt a kinds, f (normalize_url url) = FetchResult.resp 200 txt ∧ txt ≠ ""
        ∧ (a, kinds) ∈ detect_agency e txt
        ∧ rec = ⟨url, a, String.intercalate ", " kinds⟩) := by
  by_cases hn : normalize_url url = ""
  · rw [scanOne_empty_case f e url hn] at h
    exact Or.inl ⟨hn, by simpa using h⟩
  · cases hf : f (normalize_url url) with
    | exc msg =>
      rw [scanOne_exc_case f e url msg hn hf] at h
      exact Or.inr (Or.inl ⟨msg, rfl, by simpa using h⟩)
    | resp st txt =>
      by_cases hcond : st = 200 ∧ txt ≠ ""
      · obtain ⟨rfl, ht⟩ := hcond
        by_cases hd : detect_agency e txt = []
        · rw [scanOne_nomatch_case f e url txt hn hf ht hd] at h
          exact Or.inr (Or.inr (Or.inr (Or.inl ⟨txt, rfl, ht, hd, by simpa using h⟩)))
        · rw [scanOne_hits_case f e url txt hn hf ht hd] at h
          rcases List.mem_map.mp h with ⟨p, hp, hrec⟩
          exact Or.inr (Or.inr (Or.inr (Or.inr
            ⟨txt, p.1, p.2, rfl, ht, by simpa using hp, hrec.symm⟩)))
      · rw [scanOne_http_case f e url st txt hn hf (by tauto)] at h
        exact Or.inr (Or.inr (Or.inl ⟨st, txt, rfl, hcond, by simpa using h⟩))

/-- Claim C1: run_scan yields exactly one group of records per input
URL, in input order: the report is the concatenation of the per-URL
groups, every group is nonempty, and the report of a concatenated batch
splits at the batch boundary, so the outcome of one URL (success or any
failure) never aborts or corrupts the processing of the following
URLs. -/
theorem claim_scan_report_groups (f : String → FetchResult) (e : String → List String)
    (urls : List String) :
    run_scan f e urls = (urls.map (scanOne f e)).flatten
      ∧ (∀ u : String, scanOne f e u ≠ [])
      ∧ (∀ us vs : List String, run_scan f e (us ++ vs) = run_scan f e us ++ run_scan f e vs) :=
  ⟨run_scan_eq_flatten f e urls, fun u => scanOne_ne_nil f e u,
   fun us vs => run_scan_append f e us vs⟩

/-- Claim C2: every vendor matched by detect_agency carries evidence
kinds equal to text plus asset, with asset present exactly when the
lowercased whole-document corpus contains one of the literal tokens
.js .css cdn .png .jpg .svg; the asset test is global to the corpus,
never scoped to the matching signature occurrence. -/
theorem claim_detect_evidence_kinds (e : String → List String) (html a : String)
    (kinds : List String) (h : (a, kinds) ∈ detect_agency e html) :
    kinds = (if hasAssetToken (corpusOf (e html)) then ["asset", "text"] else ["text"]) :=
  (detectCore_mem_shape h).1

/-- Witness for C2: a corpus containing scorpion and .js yields the
Scorpion vendor with kinds asset and text. -/
theorem claim_detect_evidence_kinds_witness :
    ("Scorpion", ["asset", "text"]) ∈ detect_agency (fun _ => ["scorpion site.js"]) "doc"
      ∧ (["asset", "text"] : List String)
          = (if hasAssetToken (corpusOf ["scorpion site.js"]) then ["asset", "text"]
             else ["text"]) :=
  ⟨by decide,
   claim_detect_evidence_kinds (fun _ => ["scorpion site.js"]) "doc" "Scorpion"
     ["asset", "text"] (by decide)⟩

/-- Claim C3: normalize_url is total (a Lean function) and returns the
empty string when the trimmed input is empty, keeps a trimmed input
that already starts with http:// or https:// unchanged, and otherwise
adds the http:// scheme; in particular on "", " ", "example.com" and
"https://x.com". -/
theorem claim_normalize_url_cases :
    (∀ s : String, pyStrip s = "" → normalize_url s = "")
    ∧ (∀ s : String,
        (pyStartsWith (pyStrip s) "http://" || pyStartsWith (pyStrip s) "https://") = true →
        normalize_url s = pyStrip s)
    ∧ (∀ s : String, pyStrip s ≠ "" →
        (pyStartsWith (pyStrip s) "http://" || pyStartsWith (pyStrip s) "https://") = false →
        normalize_url s = "http://" ++ pyStrip s)
    ∧ normalize_url "" = "" ∧ normalize_url " " = ""
    ∧ normalize_url "example.com" = "http://example.com"
    ∧ normalize_url "https://x.com" = "https://x.com" :=
  ⟨normalize_url_empty_branch, normalize_url_keep_branch, normalize_url_addscheme_branch,
   by decide, by decide, by decide, by decide⟩

/-- Witness for C3: the three case branches evaluated at the concrete
inputs named by the claim. -/
theorem claim_normalize_url_cases_witness :
    normalize_url " " = "" ∧ normalize_url "example.com" = "http://example.com"
      ∧ normalize_url "https://x.com" = "https://x.com" :=
  ⟨claim_normalize_url_cases.1 " " (by decide),
   claim_normalize_url_cases.2.2.1 "example.com" (by decide) (by decide),
   claim_normalize_url_cases.2.1 "https://x.com" (by decide)⟩

/-- Claim C4: when the fetch of a nonempty normalized URL returns a
non-200 status or a 200 with empty body, the loop appends exactly one
Error record whose detail contains the status code; when the fetch
raises, it appends exactly one Error record carrying the fault message;
in both cases the scan continues with the remaining URLs. -/
theorem claim_scan_error_records (f : String → FetchResult) (e : String → List String)
    (url : String) (hn : normalize_url url ≠ "") :
    (∀ (st : Nat) (txt : String), f (normalize_url url) = FetchResult.resp st txt →
      st ≠ 200 ∨ txt = "" →
      scanOne f e url = [⟨url, "Error", "HTTP " ++ toString st⟩]
        ∧ strContains ("HTTP " ++ toString st) (toString st) = true)
    ∧ (∀ msg : String, f (normalize_url url) = FetchResult.exc msg →
        scanOne f e url = [⟨url, "Error", msg⟩])
    ∧ (∀ rest : List String,
        run_scan f e (url :: rest) = scanOne f e url ++ run_scan f e rest) :=
  ⟨fun st txt hf hbad =>
    ⟨scanOne_http_case f e url st txt hn hf hbad, strContains_append_self _ _⟩,
   fun msg hf => scanOne_exc_case f e url msg hn hf,
   fun rest => run_scan_cons f e url rest⟩

/-- Witness for C4: a 404 response yields one Error record whose detail
contains 404, and a raised timeout yields one Error record with the
fault message. -/
theorem claim_scan_error_records_witness :
    scanOne (fun _ => FetchResult.resp 404 "nf") (fun _ => []) "x.com"
      = [⟨"x.com", "Error", "HTTP " ++ toString 404⟩]
    ∧ strContains ("HTTP " ++ toString 404) (toString 404) = true
    ∧ scanOne (fun _ => FetchResult.exc "timed out") (fun _ => []) "y.com"
      = [⟨"y.com", "Error", "timed out"⟩] :=
  ⟨((claim_scan_error_records (fun _ => FetchResult.resp 404 "nf") (fun _ => []) "x.com"
      (by decide)).1 404 "nf" rfl (Or.inl (by decide))).1,
   ((claim_scan_error_records (fun _ => FetchResult.resp 404 "nf") (fun _ => []) "x.com"
      (by decide)).1 404 "nf" rfl (Or.inl (by decide))).2,
   (claim_scan_error_records (fun _ => FetchResult.exc "timed out") (fun _ => []) "y.com"
      (by decide)).2.1 "timed out" rfl⟩

/-- Claim C5: on a successful fetch whose detection result is
non-empty, the loop appends one Detected record per matched vendor, and
the vendor order of those records is the registry iteration order: the
matched names form a sublist of the registry names. -/
theorem claim_scan_detected_order (f : String → FetchResult) (e : String → List String)
    (url txt : String) (hn : normalize_url url ≠ "")
    (hf : f (normalize_url url) = FetchResult.resp 200 txt) (ht : txt ≠ "")
    (hd : detect_agency e txt ≠ []) :
    scanOne f e url
      = (detect_agency e txt).map (fun p => ⟨url, p.1, String.intercalate ", " p.2⟩)
    ∧ ((detect_agency e txt).map Prod.fst).Sublist (AGENCIES.map Prod.fst) := by
  refine ⟨scanOne_hits_case f e url txt hn hf ht hd, ?_⟩
  unfold detect_agency detectCore
  refine map_fst_filterMap_sublist AGENCIES _ ?_
  intro p q hq
  split at hq
  · exact (congrArg Prod.fst (Option.some.inj hq)).symm
  · exact absurd hq (by simp)

/-- Witness for C5: detection on a scorpion corpus yields the one
Detected record, and its vendor name list is a sublist of the registry
names. -/
theorem claim_scan_detected_order_witness :
    scanOne (fun _ => FetchResult.resp 200 "body") (fun _ => ["scorpion site.js"]) "x.com"
      = (detect_agency (fun _ => ["scorpion site.js"]) "body").map
          (fun p => ⟨"x.com", p.1, String.intercalate ", " p.2⟩)
    ∧ ((detect_agency (fun _ => ["scorpion site.js"]) "body").map Prod.fst).Sublist
        (AGENCIES.map Prod.fst) :=
  claim_scan_detected_order (fun _ => FetchResult.resp 200 "body")
    (fun _ => ["scorpion site.js"]) "x.com" "body" (by decide) rfl (by decide) (by decide)

/-- Counterexample to C6 as stated: an Error record whose Evidence Type
column is not empty — the empty input URL produces exactly one Error
record whose Evidence Type is the string "Empty URL". -/
theorem claim_evidence_column_cex :
    run_scan (fun _ => FetchResult.resp 200 "x") (fun _ => []) [""]
      = [⟨"", "Error", "Empty URL"⟩]
    ∧ ("Empty URL" : String) ≠ "" := by decide

/-- Claim C6 (amended): the Evidence Type column holds the comma-joined
evidence kinds for Detected records and is empty for NoMatch records;
for Error records it is not empty as claimed but holds the error
detail: the string "Empty URL", an "HTTP status" string, or the message
of the raised fetch exception. -/
theorem claim_evidence_column_amended (f : String → FetchResult) (e : String → List String)
    (urls : List String) (rec : ResultRecord) (h : rec ∈ run_scan f e urls) :
    (rec.agencyDetected = "None" → rec.evidenceType = "")
    ∧ (rec.agencyDetected ≠ "None" → rec.agencyDetected ≠ "Error" →
        ∃ txt kinds, (rec.agencyDetected, kinds) ∈ detect_agency e txt
          ∧ rec.evidenceType = String.intercalate ", " kinds)
    ∧ (rec.agencyDetected = "Error" →
        rec.evidenceType = "Empty URL"
        ∨ (∃ st : Nat, rec.evidenceType = "HTTP " ++ toString st)
        ∨ (∃ u : String, f u = FetchResult.exc rec.evidenceType)) := by
  rw [run_scan_eq_flatten] at h
  rcases List.mem_flatten.mp h with ⟨grp, hgrp, hrec⟩
  rcases List.mem_map.mp hgrp with ⟨url, hurl, rfl⟩
  rcases scanOne_mem_cases f e url rec hrec with hcase | hcase | hcase | hcase | hcase
  · obtain ⟨_, rfl⟩ := hcase
    exact ⟨fun hx => absurd hx (show ¬ ("Error" : String) = "None" by decide),
      fun _ hy => absurd rfl hy, fun _ => Or.inl rfl⟩
  · obtain ⟨msg, hfm, rfl⟩ := hcase
    exact ⟨fun hx => absurd hx (show ¬ ("Error" : String) = "None" by decide),
      fun _ hy => absurd rfl hy,
      fun _ => Or.inr (Or.inr ⟨normalize_url url, hfm⟩)⟩
  · obtain ⟨st, txt, hfm, _, rfl⟩ := hcase
    exact ⟨fun hx => absurd hx (show ¬ ("Error" : String) = "None" by decide),
      fun _ hy => absurd rfl hy,
      fun _ => Or.inr (Or.inl ⟨st, rfl⟩)⟩
  · obtain ⟨txt, hfm, ht, hd, rfl⟩ := hcase
    exact ⟨fun _ => rfl, fun hx _ => absurd rfl hx,
      fun hx => absurd hx (show ¬ ("None" : String) = "Error" by decide)⟩
  · obtain ⟨txt, a, kinds, hfm, ht, hmem, rfl⟩ := hcase
    refine ⟨fun hx => ?_, fun _ _ => ⟨txt, kinds, hmem, rfl⟩, fun hx => ?_⟩
    · have hx' : a = "None" := hx
      exact absurd (hx' ▸ (detectCore_mem_shape hmem).2)
        (show ¬ ("None" : String) ∈ AGENCIES.map Prod.fst by decide)
    · have hx' : a = "Error" := hx
      exact absurd (hx' ▸ (detectCore_mem_shape hmem).2)
        (show ¬ ("Error" : String) ∈ AGENCIES.map Prod.fst by decide)

/-- Witness for the amended C6: the Error record of an empty input URL
carries the detail "Empty URL" in its Evidence Type column. -/
theorem claim_evidence_column_amended_witness :
    (⟨"", "Error", "Empty URL"⟩ : ResultRecord).evidenceType = "Empty URL"
    ∨ (∃ st : Nat,
        (⟨"", "Error", "Empty URL"⟩ : ResultRecord).evidenceType = "HTTP " ++ toString st)
    ∨ (∃ u : String,
        (fun _ => FetchResult.resp 200 "x") u
          = FetchResult.exc (⟨"", "Error", "Empty URL"⟩ : ResultRecord).evidenceType) :=
  (claim_evidence_column_amended (fun _ => FetchResult.resp 200 "x") (fun _ => []) [""]
    ⟨"", "Error", "Empty URL"⟩ (by decide)).2.2 (by decide)

/-- Claim C7: an input URL whose normalization is empty yields exactly
one Error record with detail "Empty URL"; the outcome is the same for
every fetch function (no fetch is attempted) and the scan continues
with the remaining URLs. -/
theorem claim_scan_empty_url (f : String → FetchResult) (e : String → List String)
    (url : String) (h : normalize_url url = "") :
    scanOne f e url = [⟨url, "Error", "Empty URL"⟩]
    ∧ (∀ g : String → FetchResult, scanOne g e url = [⟨url, "Error", "Empty URL"⟩])
    ∧ (∀ rest : List String,
        run_scan f e (url :: rest) = ⟨url, "Error", "Empty URL"⟩ :: run_scan f e rest) :=
  ⟨scanOne_empty_case f e url h,
   fun g => scanOne_empty_case g e url h,
   fun rest => by rw [run_scan_cons, scanOne_empty_case f e url h]; rfl⟩

/-- Witness for C7: the whitespace-only URL " " normalizes to empty and
produces the single Error record with detail "Empty URL". -/
theorem claim_scan_empty_url_witness :
    scanOne (fun _ => FetchResult.resp 200 "x") (fun _ => []) " "
      = [⟨" ", "Error", "Empty URL"⟩] :=
  (claim_scan_empty_url (fun _ => FetchResult.resp 200 "x") (fun _ => []) " " (by decide)).1

/-- Claim C9: within one detection call every matched vendor carries
identical evidence kinds, because the asset flag is computed once from
the whole-document corpus. -/
theorem claim_detect_kinds_uniform (e : String → List String) (html a1 a2 : String)
    (k1 k2 : List String) (h1 : (a1, k1) ∈ detect_agency e html)
    (h2 : (a2, k2) ∈ detect_agency e html) : k1 = k2 :=
  ((detectCore_mem_shape h1).1).trans ((detectCore_mem_shape h2).1).symm

/-- Witness for C9: a corpus matching both Hennessey Digital and
Scorpion gives both vendors the same kinds. -/
theorem claim_detect_kinds_uniform_witness :
    ("Hennessey Digital", ["text"]) ∈ detect_agency (fun _ => ["scorpion hennessey"]) "d"
    ∧ ("Scorpion", ["text"]) ∈ detect_agency (fun _ => ["scorpion hennessey"]) "d"
    ∧ (["text"] : List String) = ["text"] :=
  ⟨by decide, by decide,
   claim_detect_kinds_uniform (fun _ => ["scorpion hennessey"]) "d" "Hennessey Digital"
     "Scorpion" ["text"] ["text"] (by decide) (by decide)⟩

/-- Claim C10: the scheme check of normalize_url is case-sensitive; a
trimmed input starting with HTTP:// or Https:// is not returned
unchanged but is prefixed with http://, producing a double-scheme
string. -/
theorem claim_normalize_case_sensitive (s : String) (htrim : pyStrip s = s)
    (h : pyStartsWith s "HTTP://" = true ∨ pyStartsWith s "Https://" = true) :
    normalize_url s = "http://" ++ s ∧ normalize_url s ≠ s := by
  have hne : s ≠ "" := by
    intro hempty
    subst hempty
    rcases h with hx | hx <;> exact absurd hx (by decide)
  have hlow : (pyStartsWith s "http://" || pyStartsWith s "https://") = false := by
    cases hx : pyStartsWith s "http://" with
    | true =>
      exfalso
      rcases h with hp | hp
      · have ha : ('H' :: "TTP://".data).isPrefixOf s.data = true := hp
        have hb : ('h' :: "ttp://".data).isPrefixOf s.data = true := hx
        exact absurd (isPrefixOf_head_eq ha hb) (by decide)
      · have ha : ('H' :: "ttps://".data).isPrefixOf s.data = true := hp
        have hb : ('h' :: "ttp://".data).isPrefixOf s.data = true := hx
        exact absurd (isPrefixOf_head_eq ha hb) (by decide)
    | false =>
      cases hy : pyStartsWith s "https://" with
      | true =>
        exfalso
        rcases h with hp | hp
        · have ha : ('H' :: "TTP://".data).isPrefixOf s.data = true := hp
          have hb : ('h' :: "ttps://".data).isPrefixOf s.data = true := hy
          exact absurd (isPrefixOf_head_eq ha hb) (by decide)
        · have ha : ('H' :: "ttps://".data).isPrefixOf s.data = true := hp
          have hb : ('h' :: "ttps://".data).isPrefixOf s.data = true := hy
          exact absurd (isPrefixOf_head_eq ha hb) (by decide)
      | false => rfl
  have hmain : normalize_url s = "http://" ++ s := by
    have h3 := normalize_url_addscheme_branch s (by rw [htrim]; exact hne)
      (by rw [htrim]; exact hlow)
    rw [htrim] at h3
    exact h3
  refine ⟨hmain, ?_⟩
  intro heq
  rw [hmain] at heq
  have hlen := congrArg String.length heq
  rw [String.length_append] at hlen
  have h7 : ("http://" : String).length = 7 := by decide
  rw [h7] at hlen
  omega

/-- Witness for C10: normalize_url "HTTP://example.com" returns the
double-scheme string "http://HTTP://example.com". -/
theorem claim_normalize_case_sensitive_witness :
    normalize_url "HTTP://example.com" = "http://HTTP://example.com"
    ∧ normalize_url "HTTP://example.com" ≠ "HTTP://example.com" := by
  have h := claim_normalize_case_sensitive "HTTP://example.com" (by decide) (Or.inl (by decide))
  exact ⟨h.1.trans (by decide), h.2⟩
